import Mathlib

/-!
# username-check: a shallow embedding of `main.go`

The program enumerates the 3-letter lowercase identifiers, probes four
platforms for each of them over HTTP, streams the identifiers that are free
everywhere through two channels into a slice and writes that slice to a file.

Conventions of the embedding:

* the HTTP transport is an oracle that answers a GET from the list of the
  requests made before it (so it may answer the same URL differently at
  different times); the state threaded through the probes is that request log;
* a channel is the FIFO list of the values sent on it;
* Go `int`/`int64` values are `Nat`/`Int`; `atomic.AddInt64` wraps at 64 bits;
* all strings of the program are ASCII, so a byte of a Go string is a `Char`.
-/

namespace UsernameCheck

/-! ## HTTP transport -/

/-- Outcome of `http.Get(url)`: either `err != nil`, or a response with its
`StatusCode`. -/
inductive GetResult where
  | err : GetResult
  | resp (StatusCode : Int) : GetResult
  deriving DecidableEq, Repr

/-- Behaviour of the transport: the outcome of a GET of a URL, given the
URLs requested so far (oldest first). -/
abbrev Transport := List String → String → GetResult

/-- The requests made so far, oldest first. -/
abbrev Net := List String

/-- `http.Get(url)`: asks the transport and records the request. -/
def httpGet (t : Transport) (url : String) (net : Net) : GetResult × Net :=
  (t net url, net ++ [url])

/-- The test `err != nil || resp.StatusCode != 404` of every probe. -/
def GetResult.rejected : GetResult → Bool
  | .err => true
  | .resp code => code != 404

/-! ## Probes (`main.go` lines 41-99) -/

def githubURL (username : String) : String := "https://github.com/" ++ username
def twitterURL (username : String) : String := "https://twitter.com/" ++ username
def linkedInURL (username : String) : String := "https://www.linkedin.com/in/" ++ username
def instagramURL (username : String) : String := "https://www.instagram.com/" ++ username ++ "/"

def checkGitHub (t : Transport) (username : String) (net : Net) : Bool × Net :=
  let url := githubURL username
  let (r, net) := httpGet t url net
  if r.rejected then (false, net) else (true, net)

def checkTwitter (t : Transport) (username : String) (net : Net) : Bool × Net :=
  let url := twitterURL username
  let (r, net) := httpGet t url net
  if r.rejected then (false, net) else (true, net)

def checkLinkedIn (t : Transport) (username : String) (net : Net) : Bool × Net :=
  let url := linkedInURL username
  let (r, net) := httpGet t url net
  if r.rejected then (false, net) else (true, net)

def checkInstagram (t : Transport) (username : String) (net : Net) : Bool × Net :=
  let url := instagramURL username
  let (r, net) := httpGet t url net
  if r.rejected then (false, net) else (true, net)

def checkUsernameAvailability (t : Transport) (username : String) (net : Net) : Bool × Net :=
  let (ok, net) := checkGitHub t username net
  if !ok then (false, net) else
  let (ok, net) := checkTwitter t username net
  if !ok then (false, net) else
  let (ok, net) := checkLinkedIn t username net
  if !ok then (false, net) else
  let (ok, net) := checkInstagram t username net
  if !ok then (false, net) else
  (true, net)

/-! ## Progress (`main.go` lines 19-27) -/

/-- Two's-complement wrap of an integer into the `int64` range. -/
def wrapInt64 (x : Int) : Int := (x + 2 ^ 63) % 2 ^ 64 - 2 ^ 63

/-- The counters of `Progress`; `startTime` is only read by `display`, which
receives the elapsed time instead. -/
structure Progress where
  current : Int
  total : Int
  deriving DecidableEq, Repr

/-- `atomic.AddInt64(&p.current, 1)`. -/
def Progress.increment (p : Progress) : Progress :=
  { p with current := wrapInt64 (p.current + 1) }

/-! ## Generator (`main.go` lines 102-129) -/

def alphabet : String := "abcdefghijklmnopqrstuvwxyz"

def alphabetLen : Nat := alphabet.length

/-- The byte `alphabet[k]`; every index the program uses is `temp % alphabetLen`,
so it is in range. -/
def alphabetAt (k : Nat) : Char := alphabet.data.getD k 'a'

/-- `int(math.Pow(float64(alphabetLen), float64(3)))`: 26 cubed is far below
2^53, so the float64 power is the exact integer. -/
def total : Nat := alphabetLen ^ 3

/-- The inner loop `for j := 0; j < 3; j++`, with `n` iterations left. -/
def combinationLoop : Nat → Nat → String → String
  | 0, _, combination => combination
  | n + 1, temp, combination =>
    combinationLoop n (temp / alphabetLen)
      (String.singleton (alphabetAt (temp % alphabetLen)) ++ combination)

/-- The identifier built for index `i` (lines 111-117). -/
def buildCombination (i : Nat) : String := combinationLoop 3 i ""

/-- State of the generator goroutine. -/
structure GenState where
  /-- values sent on the `results` channel so far, oldest first -/
  results : List String
  /-- whether `close(results)` has run -/
  closed : Bool
  progress : Progress
  net : Net
  deriving DecidableEq, Repr

/-- Lines 119-123: verify the identifier and send it on `results` when it is
available on all platforms. -/
def verifyAndSend (t : Transport) (combination : String) (s : GenState) : GenState :=
  let (ok, net) := checkUsernameAvailability t combination s.net
  if ok then { s with results := s.results ++ [combination], net := net }
  else { s with net := net }

/-- Lines 119-126 for one identifier: verify, send, then `progress.increment()`. -/
def processCombination (t : Transport) (s : GenState) (combination : String) : GenState :=
  let s := verifyAndSend t combination s
  { s with progress := s.progress.increment }

/-- One whole iteration of the outer loop (lines 111-126): build the identifier
of index `i`, then process it. -/
def iteration (t : Transport) (s : GenState) (i : Nat) : GenState :=
  let combination := buildCombination i
  processCombination t s combination

/-- State of the generator after the first `k` iterations of the outer loop. -/
def afterIterations (t : Transport) (progress : Progress) (net : Net) (k : Nat) : GenState :=
  (List.range k).foldl (iteration t) ⟨[], false, progress, net⟩

/-- `generateCombinationsCPU(results, progress)`: the loop
`for i := 0; i < total; i++`, then `close(results)`. -/
def generateCombinationsCPU (t : Transport) (progress : Progress) (net : Net) : GenState :=
  let s := afterIterations t progress net total
  { s with closed := true }

/-- The identifiers in the order the outer loop builds them, `i = 0 .. total-1`. -/
def combinations : List String := (List.range total).map buildCombination

/-- Whether `c` is one of the bytes `a` .. `z`. -/
def isLower (c : Char) : Prop := 'a' ≤ c ∧ c ≤ 'z'

/-- Strict lexicographic order of two strings, bytes compared by value. -/
def lexLt (a b : String) : Prop := List.Lex (· < ·) a.data b.data

/-- Position of a byte in `alphabet`: the `alphabetIndex(char)` of the
positional reading of an identifier. -/
def alphabetIndex (c : Char) : Nat := alphabet.data.indexOf c

/-- Positional value of a 3-byte identifier, most significant byte first: the
sum over the positions `p` of `alphabetIndex(char at p) * 26^(2 - p)`. -/
def decode (s : String) : Nat :=
  ((List.range 3).map fun p => alphabetIndex (s.data.getD p 'a') * 26 ^ (2 - p)).sum

/-- The `Progress` built in `main` (lines 139-142): `current` is the zero value,
`total` is `int64(math.Pow(26, 3))`. -/
def mainProgress : Progress := { current := 0, total := 26 ^ 3 }

/-- A transport that answers every request with status 404. -/
def always404 : Transport := fun _ _ => GetResult.resp 404

/-- A transport that answers every request with status 200. -/
def always200 : Transport := fun _ _ => GetResult.resp 200

/-! ## Progress display (`main.go` lines 29-38) -/

/-- `Result` (lines 14-16). -/
structure Result where
  Combination : String
  deriving DecidableEq, Repr

/-- Error of a failed file operation as package `os` reports it, a `*PathError`
with the operation, the file name and the cause. -/
structure PathError where
  Op : String
  Path : String
  Err : String
  deriving DecidableEq, Repr

/-- `(*PathError).Error()`, what `%v` prints. -/
def PathError.Error (e : PathError) : String := e.Op ++ " " ++ e.Path ++ ": " ++ e.Err

/-- Behaviour of the file system during the run. -/
structure FileSystem where
  /-- `os.Create(name)`: the cause when the file cannot be created -/
  createErr : String → Option String
  /-- the `k`-th `WriteString` on the file, counted from 0: `none` when the whole
  string is written, else the number of bytes written and the cause -/
  writeErr : Nat → Option (Nat × String)

/-- An open file: its name, the bytes written to it, the number of
`WriteString` calls made on it. -/
structure File where
  name : String
  content : String
  writes : Nat
  deriving DecidableEq, Repr

/-- `os.Create(name)`: a fresh empty file, or the error. -/
def osCreate (fs : FileSystem) (name : String) : Except PathError File :=
  match fs.createErr name with
  | some cause => .error ⟨"open", name, cause⟩
  | none => .ok ⟨name, "", 0⟩

/-- `file.WriteString(s)`. -/
def File.WriteString (fs : FileSystem) (f : File) (s : String) : File × Option PathError :=
  match fs.writeErr f.writes with
  | none => ({ f with content := f.content ++ s, writes := f.writes + 1 }, none)
  | some (n, cause) =>
    ({ f with content := f.content ++ String.mk (s.data.take n), writes := f.writes + 1 },
      some ⟨"write", f.name, cause⟩)

/-- How the process ends: `main` returns, or `os.Exit(code)` is called. -/
inductive Exit where
  | mainReturned : Exit
  | osExit (code : Int) : Exit
  deriving DecidableEq, Repr

/-- Exit status of the process: 0 when `main` returns. -/
def Exit.status : Exit → Int
  | .mainReturned => 0
  | .osExit code => code

/-- What the main goroutine leaves behind from line 199 on: the texts it
printed in order, the file when one was created, and how it ended. -/
structure MainOutcome where
  printed : List String
  file : Option File
  exit : Exit
  deriving DecidableEq, Repr

def resultsFile : String := "common_usernames.txt"

/-- The write loop (lines 208-214): stops at the first failing write and hands
the error back. -/
def writeResults (fs : FileSystem) : List Result → File → File × Option PathError
  | [], file => (file, none)
  | result :: rest, file =>
    match file.WriteString fs (result.Combination ++ "\n") with
    | (file, some err) => (file, some err)
    | (file, none) => writeResults fs rest file

/-- The success summary of line 216. -/
def summary (n : Nat) : String :=
  "\nProcessed " ++ toString n ++ " combinations. Results saved to " ++ resultsFile ++ "\n"

/-- Lines 199-217 of `main`, given the collected `results`. -/
def saveResults (fs : FileSystem) (results : List Result) : MainOutcome :=
  match osCreate fs resultsFile with
  | .error err =>
    ⟨["Error creating results file: " ++ err.Error ++ "\n"], none, Exit.mainReturned⟩
  | .ok file =>
    match writeResults fs results file with
    | (file, some err) =>
      ⟨["Error writing to file: " ++ err.Error ++ "\n"], some file, Exit.mainReturned⟩
    | (file, none) =>
      ⟨[summary results.length], some file, Exit.mainReturned⟩

/-- Lines 161-196: the generator sends on `combinations`, the forwarding
goroutine wraps each value it receives in a `Result` and sends it on
`resultChan`, the collecting goroutine appends each value it receives to
`results`. Each channel has one sender and one receiver and is FIFO, so each
stage receives the values in the order they were sent. -/
def collectResults (t : Transport) (net : Net) : List Result :=
  let combinations := (generateCombinationsCPU t mainProgress net).results
  let resultChan := combinations.map fun combination => ({ Combination := combination } : Result)
  resultChan.foldl (fun results result => results ++ [result]) []

/-- The main goroutine from the pipeline to the end of `main`. -/
def main (t : Transport) (fs : FileSystem) (net : Net) : MainOutcome :=
  saveResults fs (collectResults t net)

/-- A file system on which the file is created and the `k`-th write fails with
no byte written and the cause "no space left on device". -/
def failsAtWrite (k : Nat) : FileSystem :=
  { createErr := fun _ => none
    writeErr := fun j => if j = k then some (0, "no space left on device") else none }

/-- A file system on which the file cannot be created. -/
def noCreate : FileSystem :=
  { createErr := fun _ => some "permission denied"
    writeErr := fun _ => none }

/-- The text made of the given identifiers, each followed by one newline. -/
def concatLines : List String → String
  | [] => ""
  | c :: cs => c ++ "\n" ++ concatLines cs

/-- Three collected results, as when exactly "aaa", "aab" and "aac" are
available. -/
def threeResults : List Result := [⟨"aaa"⟩, ⟨"aab"⟩, ⟨"aac"⟩]

/-! ## Theorems -/

theorem rejected_eq_false_iff (r : GetResult) :
    r.rejected = false ↔ r = GetResult.resp 404 := by
  cases r with
  | err => simp [GetResult.rejected]
  | resp code => simp [GetResult.rejected]

theorem checkGitHub_eq (t : Transport) (u : String) (net : Net) :
    checkGitHub t u net = (!(t net (githubURL u)).rejected, net ++ [githubURL u]) := by
  unfold checkGitHub httpGet
  cases h : (t net (githubURL u)).rejected <;> simp [h]

theorem checkTwitter_eq (t : Transport) (u : String) (net : Net) :
    checkTwitter t u net = (!(t net (twitterURL u)).rejected, net ++ [twitterURL u]) := by
  unfold checkTwitter httpGet
  cases h : (t net (twitterURL u)).rejected <;> simp [h]

theorem checkLinkedIn_eq (t : Transport) (u : String) (net : Net) :
    checkLinkedIn t u net = (!(t net (linkedInURL u)).rejected, net ++ [linkedInURL u]) := by
  unfold checkLinkedIn httpGet
  cases h : (t net (linkedInURL u)).rejected <;> simp [h]

theorem checkInstagram_eq (t : Transport) (u : String) (net : Net) :
    checkInstagram t u net = (!(t net (instagramURL u)).rejected, net ++ [instagramURL u]) := by
  unfold checkInstagram httpGet
  cases h : (t net (instagramURL u)).rejected <;> simp [h]

theorem checkUsernameAvailability_fst (t : Transport) (u : String) (net : Net) :
    (checkUsernameAvailability t u net).1 =
      (!(t net (githubURL u)).rejected &&
        !(t (net ++ [githubURL u]) (twitterURL u)).rejected &&
        !(t (net ++ [githubURL u, twitterURL u]) (linkedInURL u)).rejected &&
        !(t (net ++ [githubURL u, twitterURL u, linkedInURL u]) (instagramURL u)).rejected) := by
  unfold checkUsernameAvailability
  simp only [checkGitHub_eq, checkTwitter_eq, checkLinkedIn_eq, checkInstagram_eq,
    List.append_assoc, List.singleton_append, List.cons_append, List.nil_append]
  cases t net (githubURL u) |>.rejected <;>
  cases t (net ++ [githubURL u]) (twitterURL u) |>.rejected <;>
  cases t (net ++ [githubURL u, twitterURL u]) (linkedInURL u) |>.rejected <;>
  cases t (net ++ [githubURL u, twitterURL u, linkedInURL u]) (instagramURL u)
    |>.rejected <;> simp

/-- C1: the joint verdict is `true` exactly when the four probes, run one after
the other, all return `true`; and a probe returns `true` exactly when its GET
ends without a transport error and with status 404. -/
theorem checkUsernameAvailability_true_iff (t : Transport) (u : String) (net : Net) :
    ((checkUsernameAvailability t u net).1 = true ↔
        (checkGitHub t u net).1 = true ∧
        (checkTwitter t u (checkGitHub t u net).2).1 = true ∧
        (checkLinkedIn t u (checkTwitter t u (checkGitHub t u net).2).2).1 = true ∧
        (checkInstagram t u
          (checkLinkedIn t u (checkTwitter t u (checkGitHub t u net).2).2).2).1 = true) ∧
    (∀ n : Net, ((checkGitHub t u n).1 = true ↔ t n (githubURL u) = GetResult.resp 404) ∧
      ((checkTwitter t u n).1 = true ↔ t n (twitterURL u) = GetResult.resp 404) ∧
      ((checkLinkedIn t u n).1 = true ↔ t n (linkedInURL u) = GetResult.resp 404) ∧
      ((checkInstagram t u n).1 = true ↔ t n (instagramURL u) = GetResult.resp 404)) ∧
    ((checkUsernameAvailability t u net).1 = true ↔
        t net (githubURL u) = GetResult.resp 404 ∧
        t (net ++ [githubURL u]) (twitterURL u) = GetResult.resp 404 ∧
        t (net ++ [githubURL u, twitterURL u]) (linkedInURL u) = GetResult.resp 404 ∧
        t (net ++ [githubURL u, twitterURL u, linkedInURL u]) (instagramURL u)
          = GetResult.resp 404) := by
  refine ⟨?_, ?_, ?_⟩
  · unfold checkUsernameAvailability
    simp only [checkGitHub_eq, checkTwitter_eq, checkLinkedIn_eq, checkInstagram_eq]
    cases t net (githubURL u) |>.rejected <;>
    cases t (net ++ [githubURL u]) (twitterURL u) |>.rejected <;>
    cases t (net ++ [githubURL u] ++ [twitterURL u]) (linkedInURL u) |>.rejected <;>
    cases t (net ++ [githubURL u] ++ [twitterURL u] ++ [linkedInURL u]) (instagramURL u)
      |>.rejected <;> simp
  · intro n
    simp only [checkGitHub_eq, checkTwitter_eq, checkLinkedIn_eq, checkInstagram_eq,
      Bool.not_eq_true', rejected_eq_false_iff, and_self]
  · rw [checkUsernameAvailability_fst]
    simp only [Bool.and_eq_true, Bool.not_eq_true', rejected_eq_false_iff, and_assoc]

/-- C4: the probes run in the order GitHub, Twitter, LinkedIn, Instagram and
the first one that returns `false` is the last one invoked: when the first
non-available probe is the k-th, exactly the first k requests are added to the
request log (in that order), and all four are made only when the first three
probes return `true`. -/
theorem checkUsernameAvailability_short_circuit (t : Transport) (u : String) (net : Net) :
    ((checkGitHub t u net).1 = false →
        checkUsernameAvailability t u net = (false, net ++ [githubURL u])) ∧
    ((checkGitHub t u net).1 = true →
      (checkTwitter t u (net ++ [githubURL u])).1 = false →
        checkUsernameAvailability t u net = (false, net ++ [githubURL u, twitterURL u])) ∧
    ((checkGitHub t u net).1 = true →
      (checkTwitter t u (net ++ [githubURL u])).1 = true →
      (checkLinkedIn t u (net ++ [githubURL u, twitterURL u])).1 = false →
        checkUsernameAvailability t u net
          = (false, net ++ [githubURL u, twitterURL u, linkedInURL u])) ∧
    ((checkGitHub t u net).1 = true →
      (checkTwitter t u (net ++ [githubURL u])).1 = true →
      (checkLinkedIn t u (net ++ [githubURL u, twitterURL u])).1 = true →
        checkUsernameAvailability t u net
          = ((checkInstagram t u (net ++ [githubURL u, twitterURL u, linkedInURL u])).1,
              net ++ [githubURL u, twitterURL u, linkedInURL u, instagramURL u])) ∧
    (((checkUsernameAvailability t u net).2.length = net.length + 4) ↔
      ((checkGitHub t u net).1 = true ∧
        (checkTwitter t u (net ++ [githubURL u])).1 = true ∧
        (checkLinkedIn t u (net ++ [githubURL u, twitterURL u])).1 = true)) := by
  unfold checkUsernameAvailability
  simp only [checkGitHub_eq, checkTwitter_eq, checkLinkedIn_eq, checkInstagram_eq,
    List.append_assoc, List.singleton_append, List.cons_append, List.nil_append]
  cases t net (githubURL u) |>.rejected <;>
  cases t (net ++ [githubURL u]) (twitterURL u) |>.rejected <;>
  cases t (net ++ [githubURL u, twitterURL u]) (linkedInURL u) |>.rejected <;>
  cases t (net ++ [githubURL u, twitterURL u, linkedInURL u]) (instagramURL u)
    |>.rejected <;> simp

/-! ### The generated identifiers -/

theorem alphabetLen_eq : alphabetLen = 26 := by decide

theorem total_eq : total = 17576 := by
  unfold total; rw [alphabetLen_eq]; norm_num

theorem buildCombination_eq (i : Nat) :
    buildCombination i =
      String.mk [alphabetAt (i / 26 / 26 % 26), alphabetAt (i / 26 % 26), alphabetAt (i % 26)] := by
  unfold buildCombination combinationLoop combinationLoop combinationLoop combinationLoop
  rw [alphabetLen_eq]
  rfl

theorem alphabetAt_eq : ∀ k < 26, alphabetAt k = Char.ofNat (97 + k) := by decide

theorem alphabetAt_lt : ∀ b < 26, ∀ a < b, alphabetAt a < alphabetAt b := by decide

theorem alphabetAt_isLower : ∀ k < 26, 'a' ≤ alphabetAt k ∧ alphabetAt k ≤ 'z' := by decide

theorem buildCombination_lt {i j : Nat} (hij : i < j) (hj : j < 17576) :
    lexLt (buildCombination i) (buildCombination j) := by
  unfold lexLt
  rw [buildCombination_eq, buildCombination_eq]
  have b2 : j / 26 / 26 % 26 < 26 := Nat.mod_lt _ (by decide)
  have b1 : j / 26 % 26 < 26 := Nat.mod_lt _ (by decide)
  have b0 : j % 26 < 26 := Nat.mod_lt _ (by decide)
  have hcases : i / 26 / 26 % 26 < j / 26 / 26 % 26 ∨
      (i / 26 / 26 % 26 = j / 26 / 26 % 26 ∧ i / 26 % 26 < j / 26 % 26) ∨
      (i / 26 / 26 % 26 = j / 26 / 26 % 26 ∧ i / 26 % 26 = j / 26 % 26 ∧ i % 26 < j % 26) := by
    omega
  rcases hcases with h | ⟨h2, h⟩ | ⟨h2, h1, h⟩
  · exact List.Lex.rel (alphabetAt_lt _ b2 _ h)
  · rw [h2]
    exact List.Lex.cons (List.Lex.rel (alphabetAt_lt _ b1 _ h))
  · rw [h2, h1]
    exact List.Lex.cons (List.Lex.cons (List.Lex.rel (alphabetAt_lt _ b0 _ h)))

theorem lexLt_irrefl (a : String) : ¬ lexLt a a := by
  unfold lexLt
  exact irrefl_of (List.Lex (· < ·)) a.data

theorem combinations_pairwise : combinations.Pairwise lexLt := by
  unfold combinations
  rw [List.pairwise_map]
  refine (List.pairwise_lt_range total).imp_of_mem ?_
  intro i j _ hj hij
  rw [List.mem_range, total_eq] at hj
  exact buildCombination_lt hij hj

theorem combinations_nodup : combinations.Nodup := by
  refine combinations_pairwise.imp ?_
  intro a b hab heq
  subst heq
  exact lexLt_irrefl a hab

theorem combinations_length : combinations.length = 17576 := by
  simp [combinations, total_eq]

theorem buildCombination_shape (i : Nat) :
    (buildCombination i).length = 3 ∧ ∀ c ∈ (buildCombination i).data, isLower c := by
  rw [buildCombination_eq]
  refine ⟨rfl, ?_⟩
  intro c hc
  simp only [List.mem_cons, List.mem_singleton, List.not_mem_nil, or_false] at hc
  rcases hc with h | h | h <;> subst h <;>
    exact alphabetAt_isLower _ (Nat.mod_lt _ (by decide))

theorem exists_alphabetAt (c : Char) (hc : isLower c) : ∃ k < 26, alphabetAt k = c := by
  obtain ⟨h1, h2⟩ := hc
  have h1' : 97 ≤ c.toNat := h1
  have h2' : c.toNat ≤ 122 := h2
  refine ⟨c.toNat - 97, by omega, ?_⟩
  rw [alphabetAt_eq _ (by omega)]
  have : 97 + (c.toNat - 97) = c.toNat := by omega
  rw [this, Char.ofNat_toNat]

theorem mem_combinations_of_lower (s : String) (hlen : s.length = 3)
    (hlow : ∀ c ∈ s.data, isLower c) : s ∈ combinations := by
  obtain ⟨l⟩ := s
  match l, hlen, hlow with
  | [c2, c1, c0], _, hlow =>
    obtain ⟨k2, hk2, e2⟩ := exists_alphabetAt c2 (hlow c2 (by simp))
    obtain ⟨k1, hk1, e1⟩ := exists_alphabetAt c1 (hlow c1 (by simp))
    obtain ⟨k0, hk0, e0⟩ := exists_alphabetAt c0 (hlow c0 (by simp))
    unfold combinations
    rw [List.mem_map]
    refine ⟨k2 * 676 + k1 * 26 + k0, ?_, ?_⟩
    · rw [List.mem_range, total_eq]; omega
    · rw [buildCombination_eq]
      have d2 : (k2 * 676 + k1 * 26 + k0) / 26 / 26 % 26 = k2 := by omega
      have d1 : (k2 * 676 + k1 * 26 + k0) / 26 % 26 = k1 := by omega
      have d0 : (k2 * 676 + k1 * 26 + k0) % 26 = k0 := by omega
      rw [d2, d1, d0, e2, e1, e0]

theorem afterIterations_eq_foldl (t : Transport) (progress : Progress) (net : Net) (k : Nat) :
    afterIterations t progress net k =
      ((List.range k).map buildCombination).foldl (processCombination t)
        ⟨[], false, progress, net⟩ := by
  unfold afterIterations
  rw [List.foldl_map]
  rfl

/-- C2: the identifiers built by the outer loop of `generateCombinationsCPU`,
in loop order, are the list `combinations`, which the generator verifies one
after the other; there are 26^3 = 17576 of them, each has exactly 3 bytes, all
in `a`..`z`, the list is strictly ascending lexicographically, it starts with
"aaa" and ends with "zzz", and every 3-letter lowercase string occurs in it
exactly once. -/
theorem combinations_enumeration :
    (∀ (t : Transport) (progress : Progress) (net : Net),
      generateCombinationsCPU t progress net =
        { combinations.foldl (processCombination t) ⟨[], false, progress, net⟩ with
          closed := true }) ∧
    combinations = (List.range total).map buildCombination ∧
    total = 26 ^ 3 ∧
    combinations.length = 17576 ∧
    (∀ s ∈ combinations, s.length = 3 ∧ ∀ c ∈ s.data, isLower c) ∧
    combinations.Pairwise lexLt ∧
    combinations.head? = some "aaa" ∧
    combinations.getLast? = some "zzz" ∧
    (∀ s : String, s.length = 3 → (∀ c ∈ s.data, isLower c) → combinations.count s = 1) := by
  refine ⟨?_, rfl, by rw [total_eq]; norm_num, combinations_length, ?_, combinations_pairwise,
    ?_, ?_, ?_⟩
  · intro t progress net
    unfold generateCombinationsCPU
    rw [afterIterations_eq_foldl]
    rfl
  · intro s hs
    unfold combinations at hs
    rw [List.mem_map] at hs
    obtain ⟨i, _, rfl⟩ := hs
    exact buildCombination_shape i
  · rw [List.head?_eq_getElem?]
    unfold combinations
    rw [List.getElem?_map, List.getElem?_range (by rw [total_eq]; norm_num)]
    decide
  · rw [List.getLast?_eq_getElem?, combinations_length]
    unfold combinations
    rw [List.getElem?_map, List.getElem?_range (by rw [total_eq]; norm_num)]
    decide
  · intro s hlen hlow
    exact List.count_eq_one_of_mem combinations_nodup (mem_combinations_of_lower s hlen hlow)

theorem alphabetIndex_alphabetAt : ∀ k < 26, alphabetIndex (alphabetAt k) = k := by decide

theorem decode_buildCombination {i : Nat} (hi : i < 26 ^ 3) : decode (buildCombination i) = i := by
  have h2 := alphabetIndex_alphabetAt (i / 26 / 26 % 26) (Nat.mod_lt _ (by decide))
  have h1 := alphabetIndex_alphabetAt (i / 26 % 26) (Nat.mod_lt _ (by decide))
  have h0 := alphabetIndex_alphabetAt (i % 26) (Nat.mod_lt _ (by decide))
  rw [buildCombination_eq]
  simp only [decode, List.range_succ, List.range_zero, List.nil_append, List.cons_append,
    List.map_cons, List.map_nil, List.getD_cons_zero, List.getD_cons_succ, List.sum_cons,
    List.sum_nil, h2, h1, h0]
  norm_num at hi ⊢
  omega

/-- C3: for every index `i < 26^3` the identifier built by the inner loop has
at position `p` the alphabet byte of the base-26 digit `i / 26^(2-p) % 26`
(most significant first), decoding it gives `i` back, and no other index below
`26^3` gives the same identifier. -/
theorem buildCombination_roundtrip (i : Nat) (hi : i < 26 ^ 3) :
    (buildCombination i).length = 3 ∧
    (∀ p < 3, (buildCombination i).data.getD p 'a' = alphabetAt (i / 26 ^ (2 - p) % 26)) ∧
    decode (buildCombination i) = i ∧
    (∀ j < 26 ^ 3, buildCombination i = buildCombination j → i = j) := by
  refine ⟨(buildCombination_shape i).1, ?_, decode_buildCombination hi, ?_⟩
  · intro p hp
    rw [buildCombination_eq]
    interval_cases p
    · simp [Nat.div_div_eq_div_mul]
    · simp
    · simp
  · intro j hj h
    rw [← decode_buildCombination hi, ← decode_buildCombination hj, h]

/-- C3 at index 12345, whose identifier is "sgv". -/
theorem buildCombination_roundtrip_witness :
    12345 < 26 ^ 3 ∧ buildCombination 12345 = "sgv" ∧ decode (buildCombination 12345) = 12345 :=
  ⟨by norm_num, by decide, (buildCombination_roundtrip 12345 (by norm_num)).2.2.1⟩

/-! ### Progress counting in the generator -/

theorem verifyAndSend_progress (t : Transport) (c : String) (s : GenState) :
    (verifyAndSend t c s).progress = s.progress := by
  unfold verifyAndSend
  rcases checkUsernameAvailability t c s.net with ⟨ok, n⟩
  cases ok <;> rfl

theorem verifyAndSend_closed (t : Transport) (c : String) (s : GenState) :
    (verifyAndSend t c s).closed = s.closed := by
  unfold verifyAndSend
  rcases checkUsernameAvailability t c s.net with ⟨ok, n⟩
  cases ok <;> rfl

theorem verifyAndSend_results (t : Transport) (c : String) (s : GenState) :
    (verifyAndSend t c s).results =
      if (checkUsernameAvailability t c s.net).1 then s.results ++ [c] else s.results := by
  unfold verifyAndSend
  rcases checkUsernameAvailability t c s.net with ⟨ok, n⟩
  cases ok <;> rfl

theorem afterIterations_succ (t : Transport) (progress : Progress) (net : Net) (k : Nat) :
    afterIterations t progress net (k + 1) =
      iteration t (afterIterations t progress net k) k := by
  unfold afterIterations
  rw [List.range_succ, List.foldl_append]
  rfl

theorem wrapInt64_of_inRange {x : Int} (h1 : -2 ^ 63 ≤ x) (h2 : x < 2 ^ 63) :
    wrapInt64 x = x := by
  unfold wrapInt64
  omega

theorem afterIterations_current (t : Transport) (net : Net) (total' : Int) (k : Nat)
    (hk : k ≤ 17576) :
    (afterIterations t ⟨0, total'⟩ net k).progress.current = k := by
  induction k with
  | zero => rfl
  | succ k ih =>
    rw [afterIterations_succ]
    simp only [iteration, processCombination, Progress.increment, verifyAndSend_progress]
    rw [ih (by omega), wrapInt64_of_inRange (by omega) (by omega)]
    push_cast
    rfl

theorem afterIterations_results_length (t : Transport) (progress : Progress) (net : Net)
    (k : Nat) : (afterIterations t progress net k).results.length ≤ k := by
  induction k with
  | zero => exact Nat.le_refl 0
  | succ k ih =>
    rw [afterIterations_succ]
    simp only [iteration, processCombination, verifyAndSend_results]
    split
    · rw [List.length_append, List.length_singleton]; omega
    · omega

theorem afterIterations_total (t : Transport) (progress : Progress) (net : Net) (k : Nat) :
    (afterIterations t progress net k).progress.total = progress.total := by
  induction k with
  | zero => rfl
  | succ k ih =>
    rw [afterIterations_succ]
    simp only [iteration, processCombination, Progress.increment, verifyAndSend_progress]
    exact ih

theorem afterIterations_closed (t : Transport) (progress : Progress) (net : Net) (k : Nat) :
    (afterIterations t progress net k).closed = false := by
  induction k with
  | zero => rfl
  | succ k ih =>
    rw [afterIterations_succ]
    simp only [iteration, processCombination, verifyAndSend_closed]
    exact ih

theorem generateCombinationsCPU_progress_eq (t : Transport) (progress : Progress) (net : Net) :
    (generateCombinationsCPU t progress net).progress
      = (afterIterations t progress net total).progress := by
  unfold generateCombinationsCPU
  simp only

theorem generateCombinationsCPU_results_eq (t : Transport) (progress : Progress) (net : Net) :
    (generateCombinationsCPU t progress net).results
      = (afterIterations t progress net total).results := by
  unfold generateCombinationsCPU
  simp only

/-- C6 (amended): started from the `Progress` of `main`, every iteration of the
outer loop raises `progress.current` by exactly one, whether or not the
identifier was sent, so after `k` iterations `current = k` and at most `k`
identifiers have been sent; between the send and the increment of iteration `k`
the number sent is at most `current + 1`; and when the channel is closed
`current = 17576 = total`. -/
theorem generateCombinationsCPU_progress (t : Transport) (net : Net) :
    (generateCombinationsCPU t mainProgress net).closed = true ∧
    (generateCombinationsCPU t mainProgress net).progress.current = 17576 ∧
    (generateCombinationsCPU t mainProgress net).progress.current
      = (generateCombinationsCPU t mainProgress net).progress.total ∧
    ((generateCombinationsCPU t mainProgress net).results.length : Int)
      ≤ (generateCombinationsCPU t mainProgress net).progress.current ∧
    (∀ k ≤ total,
      (afterIterations t mainProgress net k).closed = false ∧
      (afterIterations t mainProgress net k).progress.current = k ∧
      ((afterIterations t mainProgress net k).results.length : Int)
        ≤ (afterIterations t mainProgress net k).progress.current) ∧
    (∀ k < total,
      (verifyAndSend t (buildCombination k)
        (afterIterations t mainProgress net k)).progress.current = k ∧
      ((verifyAndSend t (buildCombination k)
        (afterIterations t mainProgress net k)).results.length : Int)
        ≤ (verifyAndSend t (buildCombination k)
            (afterIterations t mainProgress net k)).progress.current + 1 ∧
      (afterIterations t mainProgress net (k + 1)).progress.current
        = (afterIterations t mainProgress net k).progress.current + 1) := by
  have hcur : ∀ k ≤ total, (afterIterations t mainProgress net k).progress.current = k := by
    intro k hk
    rw [total_eq] at hk
    exact afterIterations_current t net _ k hk
  have hlen := afterIterations_results_length t mainProgress net
  refine ⟨rfl, ?_, ?_, ?_, ?_, ?_⟩
  · rw [generateCombinationsCPU_progress_eq, hcur total (le_refl _), total_eq]
    norm_num
  · rw [generateCombinationsCPU_progress_eq, hcur total (le_refl _), afterIterations_total,
      total_eq]
    norm_num [mainProgress]
  · rw [generateCombinationsCPU_progress_eq, generateCombinationsCPU_results_eq,
      hcur total (le_refl _)]
    exact_mod_cast hlen total
  · intro k hk
    refine ⟨afterIterations_closed _ _ _ _, hcur k hk, ?_⟩
    rw [hcur k hk]
    exact_mod_cast hlen k
  · intro k hk
    rw [verifyAndSend_progress, verifyAndSend_results, hcur k (le_of_lt hk), hcur (k + 1) hk]
    refine ⟨rfl, ?_, by push_cast; rfl⟩
    have := hlen k
    split
    · rw [List.length_append, List.length_singleton]; push_cast; omega
    · omega

/-- C6 counterexample: when every request is answered 404, right after the send
of the first iteration (line 122) and before its `progress.increment()`
(line 126) one identifier, "aaa", has been sent while `progress.current` is
still 0. -/
theorem sent_exceeds_current_before_increment :
    (verifyAndSend always404 (buildCombination 0)
      (afterIterations always404 mainProgress [] 0)).results = ["aaa"] ∧
    (verifyAndSend always404 (buildCombination 0)
      (afterIterations always404 mainProgress [] 0)).progress.current = 0 ∧
    ¬ (((verifyAndSend always404 (buildCombination 0)
        (afterIterations always404 mainProgress [] 0)).results.length : Int)
      ≤ (verifyAndSend always404 (buildCombination 0)
        (afterIterations always404 mainProgress [] 0)).progress.current) := by
  decide

/-! ### The write loop -/

theorem writeResults_name (fs : FileSystem) (results : List Result) (f : File) :
    (writeResults fs results f).1.name = f.name := by
  induction results generalizing f with
  | nil => rfl
  | cons r rest ih =>
    unfold writeResults File.WriteString
    cases h : fs.writeErr f.writes with
    | none => simp only [ih]
    | some v => rfl

theorem writeResults_ok (fs : FileSystem) (results : List Result) (f : File)
    (h : ∀ j < results.length, fs.writeErr (f.writes + j) = none) :
    writeResults fs results f =
      (⟨f.name, f.content ++ concatLines (results.map fun r => r.Combination),
        f.writes + results.length⟩, none) := by
  induction results generalizing f with
  | nil => simp [writeResults, concatLines]
  | cons r rest ih =>
    have h0 : fs.writeErr f.writes = none := by simpa using h 0 (by simp)
    unfold writeResults File.WriteString
    simp only [h0]
    rw [ih]
    · simp only [List.map_cons, concatLines, List.length_cons, String.append_assoc]
      congr 2
      omega
    · intro j hj
      have := h (j + 1) (by simpa using hj)
      simpa [Nat.add_assoc, Nat.add_comm 1 j] using this

theorem writeResults_fail (fs : FileSystem) (results : List Result) (f : File) (k n : Nat)
    (cause : String) (hk : k < results.length)
    (hbefore : ∀ j < k, fs.writeErr (f.writes + j) = none)
    (hat : fs.writeErr (f.writes + k) = some (n, cause)) :
    writeResults fs results f =
      (⟨f.name,
        f.content ++ concatLines ((results.take k).map fun r => r.Combination)
          ++ String.mk (((results.getD k ⟨""⟩).Combination ++ "\n").data.take n),
        f.writes + k + 1⟩, some ⟨"write", f.name, cause⟩) := by
  induction results generalizing f k with
  | nil => simp at hk
  | cons r rest ih =>
    cases k with
    | zero =>
      unfold writeResults File.WriteString
      simp only [Nat.add_zero] at hat
      simp [hat, concatLines]
    | succ k =>
      have h0 : fs.writeErr f.writes = none := by simpa using hbefore 0 (by simp)
      unfold writeResults File.WriteString
      simp only [h0]
      rw [ih _ k (by simpa using hk)]
      · simp only [List.take_succ_cons, List.map_cons, concatLines, List.getD_cons_succ,
          String.append_assoc]
        congr 2
        omega
      · intro j hj
        have := hbefore (j + 1) (by omega)
        simpa [Nat.add_assoc, Nat.add_comm 1 j] using this
      · simpa [Nat.add_assoc, Nat.add_comm 1 k] using hat

theorem writeResults_err_eq_none_iff (fs : FileSystem) (results : List Result) (f : File) :
    (writeResults fs results f).2 = none ↔
      ∀ j < results.length, fs.writeErr (f.writes + j) = none := by
  induction results generalizing f with
  | nil => simp [writeResults]
  | cons r rest ih =>
    unfold writeResults File.WriteString
    cases h0 : fs.writeErr f.writes with
    | some v =>
      simp only [reduceCtorEq, false_iff, not_forall]
      exact ⟨0, by simp, by simp [h0]⟩
    | none =>
      simp only [ih]
      constructor
      · intro h j hj
        cases j with
        | zero => simpa using h0
        | succ j =>
          have := h j (by simpa using hj)
          simpa [Nat.add_assoc, Nat.add_comm 1 j] using this
      · intro h j hj
        have := h (j + 1) (by simpa using hj)
        simpa [Nat.add_assoc, Nat.add_comm 1 j] using this

/-! ### Saving the results -/

theorem summary_ne_error (n : Nat) (pre msg : String) (h : pre.data.head? = some 'E') :
    pre ++ msg ++ "\n" ≠ summary n := by
  intro heq
  have hd := congrArg (fun s : String => s.data.head?) heq
  obtain ⟨l⟩ := pre
  cases l with
  | nil => simp at h
  | cons c cs =>
    simp only [List.head?_cons, Option.some.injEq] at h
    subst h
    simp [summary] at hd

theorem saveResults_create_failure (fs : FileSystem) (results : List Result) (cause : String)
    (h : fs.createErr resultsFile = some cause) :
    saveResults fs results =
      ⟨["Error creating results file: " ++ PathError.Error ⟨"open", resultsFile, cause⟩ ++ "\n"],
        none, Exit.mainReturned⟩ := by
  simp [saveResults, osCreate, h]

theorem saveResults_of_write_failure (fs : FileSystem) (results : List Result) (k n : Nat)
    (cause : String) (hcreate : fs.createErr resultsFile = none) (hk : k < results.length)
    (hbefore : ∀ j < k, fs.writeErr j = none) (hat : fs.writeErr k = some (n, cause)) :
    saveResults fs results =
      ⟨["Error writing to file: " ++ PathError.Error ⟨"write", resultsFile, cause⟩ ++ "\n"],
        some ⟨resultsFile,
          concatLines ((results.take k).map fun r => r.Combination)
            ++ String.mk (((results.getD k ⟨""⟩).Combination ++ "\n").data.take n),
          k + 1⟩,
        Exit.mainReturned⟩ := by
  unfold saveResults osCreate
  simp only [hcreate]
  rw [writeResults_fail fs results ⟨resultsFile, "", 0⟩ k n cause hk
    (by simpa using hbefore) (by simpa using hat)]
  simp

theorem saveResults_of_success (fs : FileSystem) (results : List Result)
    (hcreate : fs.createErr resultsFile = none)
    (hwrites : ∀ j < results.length, fs.writeErr j = none) :
    saveResults fs results =
      ⟨[summary results.length],
        some ⟨resultsFile, concatLines (results.map fun r => r.Combination), results.length⟩,
        Exit.mainReturned⟩ := by
  unfold saveResults osCreate
  simp only [hcreate]
  rw [writeResults_ok fs results ⟨resultsFile, "", 0⟩ (by simpa using hwrites)]
  simp

/-- C7 (amended): when the file was created and the `k`-th write is the first
one to fail, the write loop stops there (exactly `k + 1` `WriteString` calls
are made, the first `k` identifiers are in the file), `main` prints only
"Error writing to file: " followed by the error and a newline, a text in which
the number of identifiers written does not occur as such, prints no success
summary, and returns. -/
theorem saveResults_write_failure (fs : FileSystem) (results : List Result) (k n : Nat)
    (cause : String) (hcreate : fs.createErr resultsFile = none) (hk : k < results.length)
    (hbefore : ∀ j < k, fs.writeErr j = none) (hat : fs.writeErr k = some (n, cause)) :
    (saveResults fs results).printed
      = ["Error writing to file: write common_usernames.txt: " ++ cause ++ "\n"] ∧
    (saveResults fs results).file
      = some ⟨resultsFile,
          concatLines ((results.take k).map fun r => r.Combination)
            ++ String.mk (((results.getD k ⟨""⟩).Combination ++ "\n").data.take n),
          k + 1⟩ ∧
    summary results.length ∉ (saveResults fs results).printed ∧
    (saveResults fs results).exit = Exit.mainReturned := by
  rw [saveResults_of_write_failure fs results k n cause hcreate hk hbefore hat]
  refine ⟨?_, rfl, ?_, rfl⟩
  · simp only [PathError.Error, resultsFile, String.append_assoc, List.cons.injEq, and_true]
    rw [← String.append_assoc]
    rfl
  · simp only [List.mem_singleton]
    exact fun h => summary_ne_error results.length "Error writing to file: "
      (PathError.Error ⟨"write", resultsFile, cause⟩) (by decide) h.symm

/-- C7 at a file system whose write number 1 fails, with three results. -/
theorem saveResults_write_failure_witness :
    (saveResults (failsAtWrite 1) threeResults).printed
      = ["Error writing to file: write common_usernames.txt: no space left on device\n"] ∧
    (saveResults (failsAtWrite 1) threeResults).file
      = some ⟨"common_usernames.txt", "aaa\n", 2⟩ :=
  ⟨(saveResults_write_failure (failsAtWrite 1) threeResults 1 0 "no space left on device"
      rfl (by decide) (by decide) rfl).1,
    by decide⟩

/-- C7 counterexample: with the same three results, a failure of write number 1
(one identifier written) and a failure of write number 2 (two identifiers
written) make `main` print the very same text, which therefore does not carry
the count of identifiers written. -/
theorem write_failure_message_omits_count :
    (saveResults (failsAtWrite 1) threeResults).file
      = some ⟨"common_usernames.txt", "aaa\n", 2⟩ ∧
    (saveResults (failsAtWrite 2) threeResults).file
      = some ⟨"common_usernames.txt", "aaa\naab\n", 3⟩ ∧
    (saveResults (failsAtWrite 1) threeResults).printed
      = ["Error writing to file: write common_usernames.txt: no space left on device\n"] ∧
    (saveResults (failsAtWrite 2) threeResults).printed
      = (saveResults (failsAtWrite 1) threeResults).printed := by
  decide

theorem path_infix_diagnostic (pre op path cause : String) :
    path.data <:+: (pre ++ PathError.Error ⟨op, path, cause⟩ ++ "\n").data := by
  refine ⟨(pre ++ op ++ " ").data, (": " ++ cause ++ "\n").data, ?_⟩
  simp [PathError.Error, String.data_append, List.append_assoc]

theorem exit_status_saveResults (fs : FileSystem) (results : List Result) :
    (saveResults fs results).exit = Exit.mainReturned := by
  unfold saveResults
  cases osCreate fs resultsFile with
  | error e => rfl
  | ok file =>
    simp only
    rcases writeResults fs results file with ⟨f, _ | e⟩ <;> rfl

theorem first_failing_write (fs : FileSystem) (results : List Result)
    (h : ∃ j < results.length, fs.writeErr j ≠ none) :
    ∃ k n cause, k < results.length ∧ (∀ j < k, fs.writeErr j = none) ∧
      fs.writeErr k = some (n, cause) := by
  classical
  have hex : ∃ j, j < results.length ∧ fs.writeErr j ≠ none := by
    obtain ⟨j, hj, hne⟩ := h
    exact ⟨j, hj, hne⟩
  have hspec := Nat.find_spec hex
  have hmin := fun m (hm : m < Nat.find hex) => Nat.find_min hex hm
  cases hw : fs.writeErr (Nat.find hex) with
  | none => exact absurd hw hspec.2
  | some v =>
    refine ⟨Nat.find hex, v.1, v.2, hspec.1, ?_, hw⟩
    intro j hj
    by_contra hne
    exact hmin j hj ⟨lt_trans hj hspec.1, hne⟩

/-- C8 (amended): in every case `main` ends by returning, so the exit status
is 0, also when the file cannot be created or a write fails; in those cases it
prints one diagnostic that contains the output path and is not the success
summary; and the success summary is printed exactly when the file was created
and every write succeeded. -/
theorem saveResults_outcomes (fs : FileSystem) (results : List Result) :
    (saveResults fs results).exit = Exit.mainReturned ∧
    (saveResults fs results).exit.status = 0 ∧
    (∀ cause, fs.createErr resultsFile = some cause →
      (saveResults fs results).printed
        = ["Error creating results file: open common_usernames.txt: " ++ cause ++ "\n"] ∧
      (saveResults fs results).file = none) ∧
    ((fs.createErr resultsFile ≠ none ∨ ∃ j < results.length, fs.writeErr j ≠ none) →
      ∃ msg, (saveResults fs results).printed = [msg] ∧
        resultsFile.data <:+: msg.data ∧ msg ≠ summary results.length) ∧
    (summary results.length ∈ (saveResults fs results).printed ↔
      fs.createErr resultsFile = none ∧ ∀ j < results.length, fs.writeErr j = none) := by
  have hfail : (fs.createErr resultsFile ≠ none ∨ ∃ j < results.length, fs.writeErr j ≠ none) →
      ∃ msg, (saveResults fs results).printed = [msg] ∧
        resultsFile.data <:+: msg.data ∧ msg ≠ summary results.length := by
    intro h
    cases hc : fs.createErr resultsFile with
    | some cause =>
      rw [saveResults_create_failure fs results cause hc]
      exact ⟨_, rfl, path_infix_diagnostic _ _ _ _,
        summary_ne_error _ "Error creating results file: " _ (by decide)⟩
    | none =>
      rcases h with h | h
      · exact absurd hc h
      · obtain ⟨k, n, cause, hk, hbefore, hat⟩ := first_failing_write fs results h
        rw [saveResults_of_write_failure fs results k n cause hc hk hbefore hat]
        exact ⟨_, rfl, path_infix_diagnostic _ _ _ _,
          summary_ne_error _ "Error writing to file: " _ (by decide)⟩
  refine ⟨exit_status_saveResults fs results, ?_, ?_, hfail, ?_⟩
  · rw [exit_status_saveResults]; rfl
  · intro cause hc
    rw [saveResults_create_failure fs results cause hc]
    refine ⟨?_, rfl⟩
    simp only [PathError.Error, resultsFile, String.append_assoc, List.cons.injEq, and_true]
    rw [← String.append_assoc]
    rfl
  · constructor
    · intro hmem
      by_contra hnot
      have hor : fs.createErr resultsFile ≠ none ∨ ∃ j < results.length, fs.writeErr j ≠ none := by
        by_contra hno
        push_neg at hno
        exact hnot ⟨hno.1, hno.2⟩
      obtain ⟨msg, hp, _, hne⟩ := hfail hor
      rw [hp, List.mem_singleton] at hmem
      exact hne hmem.symm
    · rintro ⟨hc, hw⟩
      rw [saveResults_of_success fs results hc hw]
      exact List.mem_singleton_self _

/-- C8 counterexample: when the output file cannot be created, the run that
answers every probe with 200 prints the diagnostic and ends with `main`
returning, that is with exit status 0, not with an error exit state. -/
theorem create_failure_exit_status_zero :
    noCreate.createErr resultsFile = some "permission denied" ∧
    (main always200 noCreate []).printed
      = ["Error creating results file: open common_usernames.txt: permission denied\n"] ∧
    (main always200 noCreate []).exit = Exit.mainReturned ∧
    (main always200 noCreate []).exit.status = 0 := by
  refine ⟨rfl, ?_, ?_, ?_⟩
  · unfold main
    rw [saveResults_create_failure noCreate _ "permission denied" rfl]
    decide
  · unfold main
    rw [saveResults_create_failure noCreate _ "permission denied" rfl]
  · unfold main
    rw [saveResults_create_failure noCreate _ "permission denied" rfl]
    rfl

/-! ### From the generator to the file -/

end UsernameCheck
